import Mathlib

/-!
Verification of the session UI controller of the soft-serve packaging
repository (package `tui`, file `bubble.go`), together with the
configuration loading and background refresh logic of `SessionHandler`.

The Go code is shallowly embedded: the `Bubble` model and its `Update`
and `View` methods become Lean functions over an explicit state record;
Go panics (out-of-bounds slice indexing, nil dereference) are modelled
by `Option`, with `none` for a panic; outcomes of calls into external
capabilities (`RepoSource`, the filesystem, `encoding/json` parsing of
raw text) are passed as explicit `Except` parameters.
-/

/-- One entry of the configuration menu (Go struct `MenuEntry` with json
tags `name`, `note`, `repo`). -/
structure MenuEntry where
  Name : String
  Note : String
  Repo : String
  deriving Repr, DecidableEq

/-- The configuration value (Go struct `Config` with json tags `name`,
`host`, `port`, `show_all_repos`, `menu`).  The `RepoSource` field is a
pointer to an external capability and carries no parsed data, so it is
omitted from the embedding. -/
structure Config where
  Name : String
  Host : String
  Port : Int
  ShowAllRepos : Bool
  Menu : List MenuEntry
  deriving Repr, DecidableEq

/-- The session state enum (Go `sessionState`, constants `startState`,
`errorState`, `loadedState`, `quittingState`, `quitState`). -/
inductive sessionState where
  | startState
  | errorState
  | loadedState
  | quittingState
  | quitState
  deriving Repr, DecidableEq

/-- The numeric value of a `sessionState` constant (Go iota order),
used by `View`'s default branch which formats the state with %d. -/
def sessionState.num : sessionState → Nat
  | .startState => 0
  | .errorState => 1
  | .loadedState => 2
  | .quittingState => 3
  | .quitState => 4

/-- The closed set of message kinds dispatched on by `Bubble.Update`:
key presses (`tea.KeyMsg`, identified by their `String()` form), errors
(`errMsg`), window-change notifications (`windowMsg`), terminal resizes
(`tea.WindowSizeMsg`), and the Selector's `selection.SelectedMsg` /
`selection.ActiveMsg` carrying an index.  The extra constructor
`setupDone` is modelled from the spec: the message produced by the
initial asynchronous setup (`setupCmd`, defined in a file of this
repository that is not under src/) which, per spec section 4.1, moves
the session from Starting to Ready and populates the menu and the two
panels. -/
inductive Msg where
  | key (s : String)
  | err (e : String)
  | window
  | windowSize (width height : Int)
  | selected (index : Int)
  | active (index : Int)
  | setupDone (menu : List MenuEntry)
  deriving Repr, DecidableEq

/-- Commands scheduled by an update: `tea.Quit`, the re-subscription
`windowChangesCmd`, the Viewer content load `getRepoCmd` (identified by
the repository reference it was asked to load), and `emit m`, a
panel-originated command that will deliver message `m`. -/
inductive Cmd where
  | quit
  | windowChanges
  | getRepo (repo : String)
  | emit (m : Msg)
  deriving Repr, DecidableEq

/-- Modelled from the spec: the two sub-panel models (the Selector of
spec section 4.2, package `tui/bubbles/selection`, and the Viewer of
spec section 4.3, package `tui/bubbles/commits`) are code of this
repository not under src/.  Per the spec, the Selector holds the
ordered menu and a bounded cursor and emits Selected events on
confirmation (never for an empty menu); the Viewer holds displayed
content.  Each panel also records, as the ghost field `received`, every
message delivered to its update function, so that delegation from the
controller is observable. -/
inductive PanelModel where
  | selector (menu : List MenuEntry) (cursor : Nat) (received : List Msg)
  | viewer (content : String) (received : List Msg)
  deriving Repr, DecidableEq

/-- The ghost log of messages a panel's update function has received. -/
def PanelModel.received : PanelModel → List Msg
  | .selector _ _ r => r
  | .viewer _ r => r

/-- Modelled from the spec (sections 4.2 and 4.3): the panel update
functions.  The Selector moves its cursor on up/down keys, clamped at
the sequence bounds, and on enter emits a Selected event for the cursor
index unless the menu is empty; the Viewer replaces content only when a
load result arrives (driven by the controller's `getRepo` command, so
here it just records the message).  Panels emit only panel events,
never a quit command. -/
def PanelModel.update (p : PanelModel) (msg : Msg) : PanelModel × List Cmd :=
  match p with
  | .selector menu cursor received =>
    match msg with
    | .key s =>
      if s = "up" ∨ s = "k" then
        (.selector menu (cursor - 1) (msg :: received), [])
      else if s = "down" ∨ s = "j" then
        (.selector menu (min (cursor + 1) (menu.length - 1)) (msg :: received), [])
      else if s = "enter" then
        if menu.isEmpty then (.selector menu cursor (msg :: received), [])
        else (.selector menu cursor (msg :: received), [Cmd.emit (.selected cursor)])
      else (.selector menu cursor (msg :: received), [])
    | _ => (.selector menu cursor (msg :: received), [])
  | .viewer content received => (.viewer content (msg :: received), [])

/-- The session controller state (Go struct `Bubble`).  `config` is a
Go pointer and may be nil (`none`); `boxes` is the two-slot panel slice
whose entries are nil until setup completes; the external capability
fields (`windowChanges`, `repoSource`, `repos`, `repoSelect`,
`commitsLog`) are omitted. -/
structure Bubble where
  config : Option Config
  state : sessionState
  error : String
  width : Int
  height : Int
  repoMenu : List MenuEntry
  boxes : List (Option PanelModel)
  activeBox : Nat
  deriving Repr, DecidableEq

/-- Go `NewBubble`: fields from the session config, a two-slot panel
slice of nil models, and zero values elsewhere; the state is then set
to `startState`. -/
def NewBubble (cfg : Option Config) (width height : Int) : Bubble :=
  { config := cfg
    state := .startState
    error := ""
    width := width
    height := height
    repoMenu := []
    boxes := [none, none]
    activeBox := 0 }

/-- The unguarded menu indexing `b.repoMenu[msg.Index]` of `Update`,
embedded as an `Option`-returning lookup whose `none` branch is the Go
panic (negative or too-large index). -/
def menuGet (menu : List MenuEntry) (i : Int) : Option MenuEntry :=
  if 0 ≤ i then menu[i.toNat]? else none

/-- Result of the dispatch switch of `Bubble.Update`: `ret` for the
branches that return immediately (quit keys, `errMsg`), `cont` for
those that fall through to the panel delegation at the end of the
method. -/
inductive CoreResult where
  | ret (b : Bubble) (cmds : List Cmd)
  | cont (b : Bubble) (cmds : List Cmd)
  deriving Repr, DecidableEq

/-- The dispatch switch of `Bubble.Update` (bubble.go): quit keys
return `tea.Quit`; tab advances `activeBox` modulo 2 and falls through;
`errMsg` records the error, enters `errorState` and returns;
`windowMsg` re-schedules `windowChangesCmd`; a resize stores the new
width and height; `SelectedMsg` focuses box 1 and schedules
`getRepoCmd` for the indexed menu entry; `ActiveMsg` schedules
`getRepoCmd` without touching the focus.  The `setupDone` case is
modelled from the spec (section 4.1): the completed initial setup
populates the menu and both panels and enters the Ready state.  `none`
is the panic of the unguarded menu indexing. -/
def updateCore (b : Bubble) (msg : Msg) : Option CoreResult :=
  match msg with
  | .key s =>
    if s = "q" ∨ s = "ctrl+c" then some (.ret b [Cmd.quit])
    else if s = "tab" then
      some (.cont { b with activeBox := (b.activeBox + 1) % 2 } [])
    else some (.cont b [])
  | .err e => some (.ret { b with error := e, state := .errorState } [])
  | .window => some (.cont b [Cmd.windowChanges])
  | .windowSize w h => some (.cont { b with width := w, height := h } [])
  | .selected i =>
    match menuGet b.repoMenu i with
    | none => none
    | some entry =>
      some (.cont { b with activeBox := 1 } [Cmd.getRepo entry.Repo])
  | .active i =>
    match menuGet b.repoMenu i with
    | none => none
    | some entry => some (.cont b [Cmd.getRepo entry.Repo])
  | .setupDone menu =>
    some (.cont { b with
                  state := .loadedState
                  repoMenu := menu
                  boxes := [some (.selector menu 0 []), some (.viewer "" [])] } [])

/-- The tail of `Bubble.Update`: when the session is in `loadedState`,
the incoming message is forwarded to the focused panel's update
function and the updated panel is stored back; the panel's command is
appended.  `none` is the panic of indexing `b.boxes[b.activeBox]` out
of range or calling through a nil panel. -/
def delegate (b : Bubble) (msg : Msg) (cmds : List Cmd) : Option (Bubble × List Cmd) :=
  if b.state = .loadedState then
    match b.boxes[b.activeBox]? with
    | some (some p) =>
      let r := p.update msg
      some ({ b with boxes := b.boxes.set b.activeBox (some r.1) }, cmds ++ r.2)
    | _ => none
  else some (b, cmds)

/-- Go `Bubble.Update`: the dispatch switch followed, for the
fall-through branches, by delegation to the focused panel. -/
def Bubble.update (b : Bubble) (msg : Msg) : Option (Bubble × List Cmd) :=
  match updateCore b msg with
  | none => none
  | some (.ret b1 cmds) => some (b1, cmds)
  | some (.cont b1 cmds) => delegate b1 msg cmds

/-- The session event loop: messages applied in arrival order, one
`update` completing before the next message is considered, scheduled
commands accumulated in order.  `none` if any step panics. -/
def processAll (b : Bubble) (msgs : List Msg) : Option (Bubble × List Cmd) :=
  match msgs with
  | [] => some (b, [])
  | m :: rest =>
    (b.update m).bind fun p =>
      (processAll p.1 rest).map fun q => (q.1, p.2 ++ q.2)

/-! ## Rendering -/

/-- The lipgloss styles referenced by `View` and `viewForBox`
(package-level values of the `tui` package; their visual content lives
in a style file of this repository not under src/, and is irrelevant to
the claims, which concern only which style is applied and with which
width). -/
inductive StyleName where
  | headerStyle
  | footerStyle
  | errorStyle
  | normalStyle
  | appBoxStyle
  | activeBoxStyle
  | inactiveBoxStyle
  deriving Repr, DecidableEq

/-- The structure of a rendered frame: string literals, concatenation
(Go string +), a style render — `render st (some w) t` models
`st.Width(w).Render(t)` and `render st none t` models `st.Render(t)` —
and `lipgloss.JoinHorizontal` of two blocks. -/
inductive RenderTree where
  | lit (s : String)
  | cat (a b : RenderTree)
  | render (st : StyleName) (width : Option Int) (inner : RenderTree)
  | joinH (a b : RenderTree)
  deriving Repr, DecidableEq

/-- The layout constants `horizontalPadding`, `boxLeftWidth` and
`boxRightWidth` are package-level constants defined in a style file of
this repository that is not under src/.  `View` references them as bare
identifiers, so whatever their numeric values, they cannot depend on
the session's geometry; only that independence, not the values chosen
here, is used by the theorems below. -/
def horizontalPadding : Int := 2

/-- See `horizontalPadding`. -/
def boxLeftWidth : Int := 30

/-- See `horizontalPadding`. -/
def boxRightWidth : Int := 50

/-- Modelled from the spec: the panels' own `View` functions (code not
under src/).  The Selector renders its menu labels in order; the Viewer
renders its content.  Only the fact that a string is produced matters
to the claims. -/
def PanelModel.view : PanelModel → String
  | .selector menu _ _ => String.intercalate "\n" (menu.map MenuEntry.Name)
  | .viewer content _ => content

/-- Go `Bubble.viewForBox`: renders panel `i` with the active or
inactive box style at the given width; `none` is the panic of indexing
`b.boxes[i]` out of range or calling `View` through a nil panel. -/
def Bubble.viewForBox (b : Bubble) (i : Nat) (width : Int) : Option RenderTree :=
  match b.boxes[i]? with
  | some (some p) =>
    if i = b.activeBox then
      some (.render .activeBoxStyle (some width) (.lit p.view))
    else
      some (.render .inactiveBoxStyle (some width) (.lit p.view))
  | _ => none

/-- The state switch of Go `Bubble.View`, producing the body `s`: in
`loadedState` the two panels joined side by side at the fixed widths
`boxLeftWidth` and `boxRightWidth`, in `errorState` the error message,
otherwise the placeholder.  `none` is the panic of rendering a nil
panel. -/
def Bubble.viewBody (b : Bubble) : Option RenderTree :=
  match b.state with
  | .loadedState =>
    match b.viewForBox 0 boxLeftWidth, b.viewForBox 1 boxRightWidth with
    | some lb, some rb => some (.joinH lb rb)
    | _, _ => none
  | .errorState =>
    some (.render .errorStyle none (.lit ("Bummer: " ++ b.error)))
  | st =>
    some (.render .normalStyle none
      (.lit ("Doing something weird " ++ toString st.num)))

/-- Go `Bubble.View`: a header sized to the stored width minus
`horizontalPadding` and titled with the configuration name, then the
state-dependent body, then the footer, all concatenated and wrapped in
`appBoxStyle`.  `none` is the panic of dereferencing a nil `b.config`
or a nil panel. -/
def Bubble.view (b : Bubble) : Option RenderTree :=
  match b.config with
  | none => none
  | some cfg =>
    match b.viewBody with
    | none => none
    | some s =>
      some (.render .appBoxStyle none
        (.cat (.render .headerStyle (some (b.width - horizontalPadding)) (.lit cfg.Name))
          (.cat (.lit "\n\n")
            (.cat s (.cat (.lit "\n") (.render .footerStyle none (.lit "")))))))

/-- The width the header of a rendered frame was given, read off the
frame structure produced by `Bubble.view`. -/
def headerWidthOf : RenderTree → Option Int
  | .render .appBoxStyle _ (.cat (.render .headerStyle w _) _) => w
  | _ => none

/-- The widths the two panels of a rendered frame were given, read off
the frame structure produced by `Bubble.view` in the Ready state. -/
def panelWidthsOf : RenderTree → Option (Int × Int)
  | .render .appBoxStyle _
      (.cat _ (.cat _ (.cat (.joinH (.render _ wl _) (.render _ wr _)) _))) =>
    match wl, wr with
    | some a, some b => some (a, b)
    | _, _ => none
  | _ => none

/-! ## Configuration loading and the session handler -/

/-- A JSON document, as produced by parsing syntactically valid JSON
text.  Numbers are restricted to integers, which covers every document
the configuration format needs. -/
inductive Json where
  | null
  | bool (b : Bool)
  | num (n : Int)
  | str (s : String)
  | arr (xs : List Json)
  | obj (fields : List (String × Json))

/-- The zero `MenuEntry` (Go zero value). -/
def menuEntryZero : MenuEntry := { Name := "", Note := "", Repo := "" }

/-- The zero `Config` (Go `&Config{}` before unmarshalling). -/
def cfgZero : Config :=
  { Name := "", Host := "", Port := 0, ShowAllRepos := false, Menu := [] }

/-- One key/value pair of a JSON object applied to a `MenuEntry`,
following Go `encoding/json` field matching for the tags `name`,
`note`, `repo`: a null value leaves the field untouched, a wrong type
is an unmarshalling error, an unknown key is ignored.  (Go also matches
keys case-insensitively as a fallback; only exact tag matching is
exercised here.) -/
def setMenuField (e : MenuEntry) (kv : String × Json) : Except String MenuEntry :=
  if kv.1 = "name" then
    match kv.2 with
    | .null => .ok e
    | .str s => .ok { e with Name := s }
    | _ => .error "cannot unmarshal value into field MenuEntry.name of type string"
  else if kv.1 = "note" then
    match kv.2 with
    | .null => .ok e
    | .str s => .ok { e with Note := s }
    | _ => .error "cannot unmarshal value into field MenuEntry.note of type string"
  else if kv.1 = "repo" then
    match kv.2 with
    | .null => .ok e
    | .str s => .ok { e with Repo := s }
    | _ => .error "cannot unmarshal value into field MenuEntry.repo of type string"
  else .ok e

/-- Go `encoding/json` unmarshalling of one element of the `menu`
array into a `MenuEntry`: null leaves the zero value, an object is
processed key by key in order (later duplicates win), anything else is
an error. -/
def unmarshalMenuEntry : Json → Except String MenuEntry
  | .null => .ok menuEntryZero
  | .obj fields => fields.foldlM setMenuField menuEntryZero
  | _ => .error "cannot unmarshal value into Go value of type tui.MenuEntry"

/-- One key/value pair of the top-level JSON object applied to a
`Config`, following Go `encoding/json` field matching for the tags
`name`, `host`, `port`, `show_all_repos`, `menu`: a null value leaves
the field untouched, a wrong type is an unmarshalling error, an
unknown key is ignored. -/
def setConfigField (c : Config) (kv : String × Json) : Except String Config :=
  if kv.1 = "name" then
    match kv.2 with
    | .null => .ok c
    | .str s => .ok { c with Name := s }
    | _ => .error "cannot unmarshal value into field Config.name of type string"
  else if kv.1 = "host" then
    match kv.2 with
    | .null => .ok c
    | .str s => .ok { c with Host := s }
    | _ => .error "cannot unmarshal value into field Config.host of type string"
  else if kv.1 = "port" then
    match kv.2 with
    | .null => .ok c
    | .num n => .ok { c with Port := n }
    | _ => .error "cannot unmarshal value into field Config.port of type int64"
  else if kv.1 = "show_all_repos" then
    match kv.2 with
    | .null => .ok c
    | .bool v => .ok { c with ShowAllRepos := v }
    | _ => .error "cannot unmarshal value into field Config.show_all_repos of type bool"
  else if kv.1 = "menu" then
    match kv.2 with
    | .null => .ok c
    | .arr xs => (xs.mapM unmarshalMenuEntry).map fun m => { c with Menu := m }
    | _ => .error "cannot unmarshal value into field Config.menu of type []tui.MenuEntry"
  else .ok c

/-- Go `json.Unmarshal` of a parsed document into a fresh `Config`: a
null document leaves the zero value, an object is processed key by key
in order, anything else is an error. -/
def unmarshalConfig : Json → Except String Config
  | .null => .ok cfgZero
  | .obj fields => fields.foldlM setConfigField cfgZero
  | _ => .error "cannot unmarshal value into Go value of type tui.Config"

/-- The text retrieved from `config.json`, after the parsing step of
`json.Unmarshal`: either syntactically invalid JSON or a parsed
document. -/
inductive FileContent where
  | malformed
  | wellFormed (j : Json)

/-- Go `loadConfig` (bubble.go): fetch the `config` repository, fetch
the latest `config.json`, unmarshal it; each failure is wrapped with
the corresponding message prefix.  The outcomes of the two external
`RepoSource` calls are passed in explicitly. -/
def loadConfig (getRepoResult : Except String Unit)
    (latestFileResult : Except String FileContent) : Except String Config :=
  match getRepoResult with
  | .error e => .error ("cannot load config repo: " ++ e)
  | .ok _ =>
    match latestFileResult with
    | .error e => .error ("cannot load config.json: " ++ e)
    | .ok .malformed => .error ("bad json in config.json: " ++ "invalid character")
    | .ok (.wellFormed j) =>
      match unmarshalConfig j with
      | .error e => .error ("bad json in config.json: " ++ e)
      | .ok c => .ok c

/-- Outcome of the startup portion of `SessionHandler`: either the
process is aborted by `log.Fatalf`, or a session-handler closure is
produced, capturing the (possibly nil) configuration pointer, with the
non-fatal log lines emitted on the way. -/
inductive StartupOutcome where
  | fatal (logLine : String)
  | handler (appCfg : Option Config) (logLines : List String)
  deriving Repr, DecidableEq

/-- The startup portion of Go `SessionHandler` (bubble.go): a failure
of `createDefaultConfigRepo` is fatal (`log.Fatalf`); a failure of the
initial `loadConfig` is only logged (`log.Printf`) and the handler is
still produced, capturing a nil configuration pointer. -/
def sessionHandlerStartup (createDefaultResult : Except String Unit)
    (loadConfigResult : Except String Config) : StartupOutcome :=
  match createDefaultResult with
  | .error e => .fatal ("cannot create config repo: " ++ e)
  | .ok _ =>
    match loadConfigResult with
    | .error e => .handler none ["cannot load config: " ++ e]
    | .ok cfg => .handler (some cfg) []

/-- The session-handler closure of Go `SessionHandler`: a new session
gets a `Bubble` built from the captured configuration pointer and the
terminal geometry of its PTY. -/
def newSession (appCfg : Option Config) (width height : Int) : Bubble :=
  NewBubble appCfg width height

/-- One iteration of the background refresh goroutine of Go
`SessionHandler`: if `rs.LoadRepos` fails, log and keep the published
snapshot; if `loadConfig` fails, log and keep the published snapshot;
otherwise publish the newly built configuration.  Returns the new
published snapshot and the log lines of the iteration. -/
def refreshIteration (published : Option Config)
    (loadReposResult : Except String Unit)
    (loadConfigResult : Except String Config) : Option Config × List String :=
  match loadReposResult with
  | .error e => (published, ["cannot load repos: " ++ e])
  | .ok _ =>
    match loadConfigResult with
    | .error e => (published, ["cannot load config: " ++ e])
    | .ok cfg => (some cfg, [])

/-! ## Concrete fixtures -/

/-- The one-entry menu of the spec's scenario (section 8). -/
def menu1 : List MenuEntry := [{ Name := "repo1", Note := "", Repo := "repo1" }]

/-- The configuration of the spec's scenario (section 8). -/
def cfg1 : Config :=
  { Name := "Demo", Host := "0.0.0.0", Port := 23, ShowAllRepos := false, Menu := menu1 }

/-- A Ready-state session: created at 80×24 and taken through the
completed setup for `menu1`, with the Selector focused. -/
def readyBubble : Bubble :=
  { config := some cfg1
    state := .loadedState
    error := ""
    width := 80
    height := 24
    repoMenu := menu1
    boxes := [some (.selector menu1 0 []), some (.viewer "" [])]
    activeBox := 0 }

/-! ## Helper lemmas -/

/-- A panel update always appends the delivered message to the ghost
receive log. -/
theorem panel_update_received (p : PanelModel) (m : Msg) :
    (p.update m).1.received = m :: p.received := by
  cases p <;> cases m <;>
    first
      | rfl
      | (simp only [PanelModel.update]; split_ifs <;> rfl)

/-- A panel update never schedules the quit command. -/
theorem panel_update_no_quit (p : PanelModel) (m : Msg) :
    Cmd.quit ∉ (p.update m).2 := by
  cases p <;> cases m <;> simp only [PanelModel.update] <;>
    first
      | (split_ifs <;> simp)
      | simp

/-- What panel delegation does to the controller state: every field
except `boxes` is untouched, the slice keeps its length, and the
appended commands come from the panel (so never `quit`). -/
theorem delegate_spec (b : Bubble) (msg : Msg) (cmds : List Cmd)
    (b2 : Bubble) (cs2 : List Cmd) (h : delegate b msg cmds = some (b2, cs2)) :
    b2.activeBox = b.activeBox ∧ b2.state = b.state ∧ b2.width = b.width ∧
    b2.height = b.height ∧ b2.config = b.config ∧ b2.repoMenu = b.repoMenu ∧
    b2.error = b.error ∧ b2.boxes.length = b.boxes.length ∧
    ∃ extra, cs2 = cmds ++ extra ∧ Cmd.quit ∉ extra := by
  unfold delegate at h
  split at h
  · cases hg : b.boxes[b.activeBox]? with
    | none => rw [hg] at h; simp at h
    | some o =>
      cases o with
      | none => rw [hg] at h; simp at h
      | some p =>
        rw [hg] at h
        simp only [Option.some.injEq, Prod.mk.injEq] at h
        obtain ⟨hb, hc⟩ := h
        subst hb
        refine ⟨rfl, rfl, rfl, rfl, rfl, rfl, rfl, by simp, (p.update msg).2, hc.symm, ?_⟩
        exact panel_update_no_quit p msg
  · simp only [Option.some.injEq, Prod.mk.injEq] at h
    obtain ⟨hb, hc⟩ := h
    subst hb
    exact ⟨rfl, rfl, rfl, rfl, rfl, rfl, rfl, rfl, [], by simp [hc.symm], by simp⟩

/-- The ghost receive log of the panel in slot `i` (empty for an absent
or nil panel). -/
def receivedAt (b : Bubble) (i : Nat) : List Msg :=
  match b.boxes[i]? with
  | some (some p) => p.received
  | _ => []

/-- In the Ready state, delegation appends the forwarded message to the
receive log of the focused panel. -/
theorem delegate_received (b : Bubble) (msg : Msg) (cmds : List Cmd)
    (b2 : Bubble) (cs2 : List Cmd) (hs : b.state = .loadedState)
    (h : delegate b msg cmds = some (b2, cs2)) :
    receivedAt b2 b.activeBox = msg :: receivedAt b b.activeBox := by
  unfold delegate at h
  rw [if_pos hs] at h
  cases hg : b.boxes[b.activeBox]? with
  | none => rw [hg] at h; simp at h
  | some o =>
    cases o with
    | none => rw [hg] at h; simp at h
    | some p =>
      rw [hg] at h
      simp only [Option.some.injEq, Prod.mk.injEq] at h
      obtain ⟨hb, _⟩ := h
      subst hb
      have hlt : b.activeBox < b.boxes.length := by
        rcases List.getElem?_eq_some.1 hg with ⟨hl, _⟩
        exact hl
      simp only [receivedAt, List.getElem?_set_eq_of_lt _ hlt, hg]
      exact panel_update_received p msg

/-- The controller invariant: a valid focus index, the two-slot panel
slice, and populated panels once the session is Ready. -/
def CtrlInv (b : Bubble) : Prop :=
  b.activeBox < 2 ∧ b.boxes.length = 2 ∧
    (b.state = .loadedState → ∀ x ∈ b.boxes, x.isSome)

/-- Delegation preserves the controller invariant. -/
theorem delegate_inv (b : Bubble) (msg : Msg) (cmds : List Cmd)
    (b2 : Bubble) (cs2 : List Cmd) (hi : CtrlInv b)
    (h : delegate b msg cmds = some (b2, cs2)) : CtrlInv b2 := by
  unfold delegate at h
  split at h
  · cases hg : b.boxes[b.activeBox]? with
    | none => rw [hg] at h; simp at h
    | some o =>
      cases o with
      | none => rw [hg] at h; simp at h
      | some p =>
        rw [hg] at h
        simp only [Option.some.injEq, Prod.mk.injEq] at h
        obtain ⟨hb, _⟩ := h
        subst hb
        obtain ⟨h1, h2, h3⟩ := hi
        refine ⟨h1, by simpa using h2, ?_⟩
        intro hst x hx
        rcases List.mem_or_eq_of_mem_set hx with hmem | heq
        · exact h3 hst x hmem
        · subst heq; rfl
  · simp only [Option.some.injEq, Prod.mk.injEq] at h
    obtain ⟨hb, _⟩ := h
    subst hb
    exact hi

/-- The controller state carried by a dispatch-switch result. -/
def CoreResult.bubble : CoreResult → Bubble
  | .ret b _ => b
  | .cont b _ => b

/-- The commands carried by a dispatch-switch result. -/
def CoreResult.cmdList : CoreResult → List Cmd
  | .ret _ c => c
  | .cont _ c => c

/-- The dispatch switch preserves the controller invariant. -/
theorem updateCore_inv (b : Bubble) (m : Msg) (r : CoreResult)
    (hi : CtrlInv b) (h : updateCore b m = some r) : CtrlInv r.bubble := by
  obtain ⟨h1, h2, h3⟩ := hi
  cases m with
  | key s =>
    simp only [updateCore] at h
    split_ifs at h <;>
      (cases Option.some.inj h;
       exact ⟨by simp only [CoreResult.bubble]; omega, h2, h3⟩)
  | err e =>
    simp only [updateCore] at h
    cases Option.some.inj h
    exact ⟨h1, h2, fun hst => by simp [CoreResult.bubble] at hst⟩
  | window =>
    simp only [updateCore] at h
    cases Option.some.inj h
    exact ⟨h1, h2, h3⟩
  | windowSize w hh =>
    simp only [updateCore] at h
    cases Option.some.inj h
    exact ⟨h1, h2, h3⟩
  | selected i =>
    simp only [updateCore] at h
    cases hm : menuGet b.repoMenu i with
    | none => rw [hm] at h; simp at h
    | some entry =>
      rw [hm] at h
      cases Option.some.inj h
      exact ⟨by simp only [CoreResult.bubble]; omega, h2, h3⟩
  | active i =>
    simp only [updateCore] at h
    cases hm : menuGet b.repoMenu i with
    | none => rw [hm] at h; simp at h
    | some entry =>
      rw [hm] at h
      cases Option.some.inj h
      exact ⟨h1, h2, h3⟩
  | setupDone menu =>
    simp only [updateCore] at h
    cases Option.some.inj h
    refine ⟨h1, rfl, ?_⟩
    intro _ x hx
    simp only [CoreResult.bubble, List.mem_cons, List.not_mem_nil, or_false] at hx
    rcases hx with hx | hx <;> (subst hx; rfl)

/-- Every update step preserves the controller invariant. -/
theorem update_inv (b : Bubble) (m : Msg) (b1 : Bubble) (cs : List Cmd)
    (hi : CtrlInv b) (h : b.update m = some (b1, cs)) : CtrlInv b1 := by
  unfold Bubble.update at h
  cases hc : updateCore b m with
  | none => rw [hc] at h; simp at h
  | some r =>
    rw [hc] at h
    have hr := updateCore_inv b m r hi hc
    cases r with
    | ret b2 cmds =>
      simp only [Option.some.injEq, Prod.mk.injEq] at h
      obtain ⟨hb, _⟩ := h
      subst hb
      exact hr
    | cont b2 cmds => exact delegate_inv b2 m cmds b1 cs hr h

/-- Field-level description of one update step: the stored geometry
changes exactly on a resize; the state only ever moves to `errorState`
(via `errMsg`) or `loadedState` (via the completed setup) and never
changes on a key event; the quit command is scheduled only by the quit
keys. -/
theorem update_step (b : Bubble) (m : Msg) (b1 : Bubble) (cs : List Cmd)
    (h : b.update m = some (b1, cs)) :
    ((∀ w hh, m ≠ .windowSize w hh) → b1.width = b.width ∧ b1.height = b.height) ∧
    (∀ w hh, m = .windowSize w hh → b1.width = w ∧ b1.height = hh) ∧
    (b1.state = b.state ∨ b1.state = .errorState ∨ b1.state = .loadedState) ∧
    (∀ s, m = .key s → b1.state = b.state) ∧
    (Cmd.quit ∈ cs → ∃ s, m = .key s ∧ (s = "q" ∨ s = "ctrl+c")) := by
  cases m with
  | key s =>
    simp only [Bubble.update, updateCore] at h
    split_ifs at h with h1 h2
    · simp only [Option.some.injEq, Prod.mk.injEq] at h
      obtain ⟨hb, hc⟩ := h
      subst hb; subst hc
      refine ⟨fun _ => ⟨rfl, rfl⟩, ?_, Or.inl rfl, fun _ _ => rfl, fun _ => ⟨s, rfl, h1⟩⟩
      intro w hh hx
      cases hx
    · obtain ⟨ha, hs, hw, hh, _, _, _, _, extra, hcs, hnq⟩ :=
        delegate_spec _ _ _ _ _ h
      subst hcs
      refine ⟨fun _ => ⟨hw, hh⟩, ?_, Or.inl hs, fun _ _ => hs, ?_⟩
      · intro w hh2 hx
        cases hx
      · intro hm
        exact absurd (by simpa using hm) hnq
    · obtain ⟨ha, hs, hw, hh, _, _, _, _, extra, hcs, hnq⟩ :=
        delegate_spec _ _ _ _ _ h
      subst hcs
      refine ⟨fun _ => ⟨hw, hh⟩, ?_, Or.inl hs, fun _ _ => hs, ?_⟩
      · intro w hh2 hx
        cases hx
      · intro hm
        exact absurd (by simpa using hm) hnq
  | err e =>
    simp only [Bubble.update, updateCore, Option.some.injEq, Prod.mk.injEq] at h
    obtain ⟨hb, hc⟩ := h
    subst hb; subst hc
    refine ⟨fun _ => ⟨rfl, rfl⟩, ?_, Or.inr (Or.inl rfl), ?_, ?_⟩
    · intro w hh hx
      cases hx
    · intro s hx
      cases hx
    · intro hm
      simp at hm
  | window =>
    simp only [Bubble.update, updateCore] at h
    obtain ⟨ha, hs, hw, hh, _, _, _, _, extra, hcs, hnq⟩ :=
      delegate_spec _ _ _ _ _ h
    subst hcs
    refine ⟨fun _ => ⟨hw, hh⟩, ?_, Or.inl hs, ?_, ?_⟩
    · intro w hh2 hx
      cases hx
    · intro s hx
      cases hx
    · intro hm
      rcases List.mem_append.1 hm with hm2 | hm2
      · simp at hm2
      · exact absurd hm2 hnq
  | windowSize w hh =>
    simp only [Bubble.update, updateCore] at h
    obtain ⟨ha, hs, hw2, hh2, _, _, _, _, extra, hcs, hnq⟩ :=
      delegate_spec _ _ _ _ _ h
    subst hcs
    refine ⟨?_, ?_, Or.inl hs, ?_, ?_⟩
    · intro hne
      exact absurd rfl (hne w hh)
    · intro w' h' heq
      cases heq
      exact ⟨hw2, hh2⟩
    · intro s hx
      cases hx
    · intro hm
      exact absurd (by simpa using hm) hnq
  | selected i =>
    simp only [Bubble.update, updateCore] at h
    cases hmenu : menuGet b.repoMenu i with
    | none => rw [hmenu] at h; simp at h
    | some entry =>
      rw [hmenu] at h
      obtain ⟨ha, hs, hw, hh, _, _, _, _, extra, hcs, hnq⟩ :=
        delegate_spec _ _ _ _ _ h
      subst hcs
      refine ⟨fun _ => ⟨hw, hh⟩, ?_, Or.inl hs, ?_, ?_⟩
      · intro w hh2 hx
        cases hx
      · intro s hx
        cases hx
      · intro hmem
        rcases List.mem_append.1 hmem with hm2 | hm2
        · simp at hm2
        · exact absurd hm2 hnq
  | active i =>
    simp only [Bubble.update, updateCore] at h
    cases hmenu : menuGet b.repoMenu i with
    | none => rw [hmenu] at h; simp at h
    | some entry =>
      rw [hmenu] at h
      obtain ⟨ha, hs, hw, hh, _, _, _, _, extra, hcs, hnq⟩ :=
        delegate_spec _ _ _ _ _ h
      subst hcs
      refine ⟨fun _ => ⟨hw, hh⟩, ?_, Or.inl hs, ?_, ?_⟩
      · intro w hh2 hx
        cases hx
      · intro s hx
        cases hx
      · intro hmem
        rcases List.mem_append.1 hmem with hm2 | hm2
        · simp at hm2
        · exact absurd hm2 hnq
  | setupDone menu =>
    simp only [Bubble.update, updateCore] at h
    obtain ⟨ha, hs, hw, hh, _, _, _, _, extra, hcs, hnq⟩ :=
      delegate_spec _ _ _ _ _ h
    subst hcs
    refine ⟨fun _ => ⟨hw, hh⟩, ?_, Or.inr (Or.inr hs), ?_, ?_⟩
    · intro w hh2 hx
      cases hx
    · intro s hx
      cases hx
    · intro hmem
      exact absurd (by simpa using hmem) hnq

/-- The dimensions of the last resize event of a message sequence. -/
def lastResize : List Msg → Option (Int × Int)
  | [] => none
  | m :: rest =>
    match lastResize rest with
    | some r => some r
    | none =>
      match m with
      | .windowSize w h => some (w, h)
      | _ => none

/-- A sequence with no resize event leaves the stored geometry
unchanged. -/
theorem processAll_no_resize (msgs : List Msg) :
    ∀ b b2 cs, processAll b msgs = some (b2, cs) → lastResize msgs = none →
      b2.width = b.width ∧ b2.height = b.height := by
  induction msgs with
  | nil =>
    intro b b2 cs h _
    simp only [processAll, Option.some.injEq, Prod.mk.injEq] at h
    obtain ⟨hb, _⟩ := h
    subst hb
    exact ⟨rfl, rfl⟩
  | cons m rest ih =>
    intro b b2 cs h hn
    simp only [lastResize] at hn
    cases hr : lastResize rest with
    | some r => rw [hr] at hn; simp at hn
    | none =>
      rw [hr] at hn
      have hm : ∀ w hh, m ≠ Msg.windowSize w hh := by
        intro w hh hx
        subst hx
        simp at hn
      simp only [processAll] at h
      cases hu : b.update m with
      | none => rw [hu] at h; simp at h
      | some p =>
        obtain ⟨b1, cs1⟩ := p
        rw [hu, Option.some_bind] at h
        cases hp : processAll b1 rest with
        | none => rw [hp] at h; simp at h
        | some q =>
          obtain ⟨b2', cs2⟩ := q
          rw [hp] at h
          simp only [Option.map_some', Option.some.injEq, Prod.mk.injEq] at h
          obtain ⟨hb, _⟩ := h
          subst hb
          have h1 := (update_step b m b1 cs1 hu).1 hm
          have h2 := ih b1 b2' cs2 hp hr
          exact ⟨h2.1.trans h1.1, h2.2.trans h1.2⟩

/-- After processing a sequence, the stored geometry equals the
dimensions of the sequence's last resize event. -/
theorem processAll_lastResize (msgs : List Msg) :
    ∀ b b2 cs w h, processAll b msgs = some (b2, cs) →
      lastResize msgs = some (w, h) → b2.width = w ∧ b2.height = h := by
  induction msgs with
  | nil => intro b b2 cs w h _ hr; simp [lastResize] at hr
  | cons m rest ih =>
    intro b b2 cs w h hp hr
    simp only [processAll] at hp
    cases hu : b.update m with
    | none => rw [hu] at hp; simp at hp
    | some p =>
      obtain ⟨b1, cs1⟩ := p
      rw [hu, Option.some_bind] at hp
      cases hq : processAll b1 rest with
      | none => rw [hq] at hp; simp at hp
      | some q =>
        obtain ⟨b2', cs2⟩ := q
        rw [hq] at hp
        simp only [Option.map_some', Option.some.injEq, Prod.mk.injEq] at hp
        obtain ⟨hb, _⟩ := hp
        subst hb
        simp only [lastResize] at hr
        cases hrest : lastResize rest with
        | some r =>
          rw [hrest] at hr
          simp only [Option.some.injEq] at hr
          subst hr
          exact ih b1 b2' cs2 w h hq hrest
        | none =>
          rw [hrest] at hr
          have hm : m = Msg.windowSize w h := by
            cases m <;> simp_all
          subst hm
          have h1 := (update_step b _ b1 cs1 hu).2.1 w h rfl
          have h2 := processAll_no_resize rest b1 b2' cs2 hq hrest
          exact ⟨h2.1.trans h1.1, h2.2.trans h1.2⟩

/-- Processing any sequence preserves the controller invariant. -/
theorem processAll_inv (msgs : List Msg) :
    ∀ b b2 cs, CtrlInv b → processAll b msgs = some (b2, cs) → CtrlInv b2 := by
  induction msgs with
  | nil =>
    intro b b2 cs hi h
    simp only [processAll, Option.some.injEq, Prod.mk.injEq] at h
    obtain ⟨hb, _⟩ := h
    subst hb
    exact hi
  | cons m rest ih =>
    intro b b2 cs hi h
    simp only [processAll] at h
    cases hu : b.update m with
    | none => rw [hu] at h; simp at h
    | some p =>
      obtain ⟨b1, cs1⟩ := p
      rw [hu, Option.some_bind] at h
      cases hp : processAll b1 rest with
      | none => rw [hp] at h; simp at h
      | some q =>
        obtain ⟨b2', cs2⟩ := q
        rw [hp] at h
        simp only [Option.map_some', Option.some.injEq, Prod.mk.injEq] at h
        obtain ⟨hb, _⟩ := h
        subst hb
        exact ih b1 b2' cs2 (update_inv b m b1 cs1 hi hu) hp

/-- A sequence of non-quit key events neither changes the state nor
schedules the quit command. -/
theorem processAll_keys (msgs : List Msg) :
    ∀ b b2 cs, (∀ m ∈ msgs, ∃ s, m = Msg.key s ∧ ¬(s = "q" ∨ s = "ctrl+c")) →
      processAll b msgs = some (b2, cs) →
      b2.state = b.state ∧ Cmd.quit ∉ cs := by
  induction msgs with
  | nil =>
    intro b b2 cs _ h
    simp only [processAll, Option.some.injEq, Prod.mk.injEq] at h
    obtain ⟨hb, hc⟩ := h
    subst hb; subst hc
    exact ⟨rfl, by simp⟩
  | cons m rest ih =>
    intro b b2 cs hall h
    obtain ⟨s, hmk, hns⟩ := hall m (List.mem_cons_self m rest)
    subst hmk
    simp only [processAll] at h
    cases hu : b.update (.key s) with
    | none => rw [hu] at h; simp at h
    | some p =>
      obtain ⟨b1, cs1⟩ := p
      rw [hu, Option.some_bind] at h
      cases hp : processAll b1 rest with
      | none => rw [hp] at h; simp at h
      | some q =>
        obtain ⟨b2', cs2⟩ := q
        rw [hp] at h
        simp only [Option.map_some', Option.some.injEq, Prod.mk.injEq] at h
        obtain ⟨hb, hc⟩ := h
        subst hb; subst hc
        have hstep := update_step b (.key s) b1 cs1 hu
        have hst1 : b1.state = b.state := hstep.2.2.2.1 s rfl
        have hq1 : Cmd.quit ∉ cs1 := by
          intro hmem
          obtain ⟨s', hks, hqs⟩ := hstep.2.2.2.2 hmem
          cases hks
          exact hns hqs
        have hrest := ih b1 b2' cs2 (fun m hm => hall m (List.mem_cons_of_mem _ hm)) hp
        refine ⟨hrest.1.trans hst1, ?_⟩
        intro hmem
        rcases List.mem_append.1 hmem with hmem | hmem
        · exact hq1 hmem
        · exact hrest.2 hmem

/-- Delegation succeeds from any state satisfying the controller
invariant. -/
theorem delegate_success (b : Bubble) (msg : Msg) (cmds : List Cmd) (hi : CtrlInv b) :
    ∃ b2 cs2, delegate b msg cmds = some (b2, cs2) := by
  obtain ⟨h1, h2, h3⟩ := hi
  unfold delegate
  split
  · rename_i hst
    have hilt : b.activeBox < b.boxes.length := by omega
    have hget : b.boxes[b.activeBox]? = some b.boxes[b.activeBox] :=
      List.getElem?_eq_getElem hilt
    have hmem : b.boxes[b.activeBox] ∈ b.boxes := List.getElem_mem hilt
    have hsome := h3 hst _ hmem
    obtain ⟨p, hp⟩ := Option.isSome_iff_exists.1 hsome
    rw [hget, hp]
    exact ⟨_, _, rfl⟩
  · exact ⟨_, _, rfl⟩

/-- The tab key always yields a successful update from an invariant
state. -/
theorem update_tab_success (b : Bubble) (hi : CtrlInv b) :
    ∃ b1 cs, b.update (.key "tab") = some (b1, cs) := by
  have he : b.update (.key "tab") =
      delegate { b with activeBox := (b.activeBox + 1) % 2 } (.key "tab") [] := rfl
  rw [he]
  refine delegate_success _ _ _ ?_
  obtain ⟨h1, h2, h3⟩ := hi
  exact ⟨Nat.mod_lt _ (by norm_num), h2, h3⟩

/-- What a tab key press does: the focus advances modulo 2 before
delegation; outside the Ready state the rest of the model is untouched;
in the Ready state the newly focused panel's update receives the tab
key like ordinary input. -/
theorem update_tab (b : Bubble) (b1 : Bubble) (cs : List Cmd)
    (h : b.update (.key "tab") = some (b1, cs)) :
    b1.activeBox = (b.activeBox + 1) % 2 ∧ b1.state = b.state ∧
    (b.state ≠ .loadedState → b1 = { b with activeBox := (b.activeBox + 1) % 2 }) ∧
    (b.state = .loadedState →
      receivedAt b1 b1.activeBox = Msg.key "tab" :: receivedAt b b1.activeBox) := by
  have he : b.update (.key "tab") =
      delegate { b with activeBox := (b.activeBox + 1) % 2 } (.key "tab") [] := rfl
  rw [he] at h
  obtain ⟨ha, hs, _, _, _, _, _, _, _, _, _⟩ := delegate_spec _ _ _ _ _ h
  refine ⟨ha, hs, ?_, ?_⟩
  · intro hst
    unfold delegate at h
    rw [if_neg hst] at h
    simp only [Option.some.injEq, Prod.mk.injEq] at h
    exact h.1.symm
  · intro hst
    have hr := delegate_received { b with activeBox := (b.activeBox + 1) % 2 }
      (.key "tab") [] b1 cs hst h
    rw [ha]
    exact hr

/-- What an in-bounds Selected event does: focus moves to the Viewer
(box 1) and a content load for the referenced item is scheduled. -/
theorem update_selected (b : Bubble) (i : Int) (entry : MenuEntry)
    (hm : menuGet b.repoMenu i = some entry) (b1 : Bubble) (cs : List Cmd)
    (h : b.update (.selected i) = some (b1, cs)) :
    b1.activeBox = 1 ∧ Cmd.getRepo entry.Repo ∈ cs := by
  simp only [Bubble.update, updateCore] at h
  rw [hm] at h
  obtain ⟨ha, _, _, _, _, _, _, _, extra, hcs, _⟩ := delegate_spec _ _ _ _ _ h
  subst hcs
  exact ⟨ha, List.mem_append_left _ (List.mem_singleton_self _)⟩

/-- What an in-bounds Active event does: a content load for the
referenced item is scheduled, and the focus is left where it was. -/
theorem update_active (b : Bubble) (i : Int) (entry : MenuEntry)
    (hm : menuGet b.repoMenu i = some entry) (b1 : Bubble) (cs : List Cmd)
    (h : b.update (.active i) = some (b1, cs)) :
    b1.activeBox = b.activeBox ∧ Cmd.getRepo entry.Repo ∈ cs := by
  simp only [Bubble.update, updateCore] at h
  rw [hm] at h
  obtain ⟨ha, _, _, _, _, _, _, _, extra, hcs, _⟩ := delegate_spec _ _ _ _ _ h
  subst hcs
  exact ⟨ha, List.mem_append_left _ (List.mem_singleton_self _)⟩

/-- A panel box renders as a style applied at exactly the width it was
given. -/
theorem viewForBox_shape (b : Bubble) (i : Nat) (w : Int) (lb : RenderTree)
    (h : b.viewForBox i w = some lb) :
    ∃ st inner, lb = .render st (some w) inner := by
  unfold Bubble.viewForBox at h
  cases hg : b.boxes[i]? with
  | none => rw [hg] at h; simp at h
  | some o =>
    cases o with
    | none => rw [hg] at h; simp at h
    | some p =>
      rw [hg] at h
      split_ifs at h <;>
        (simp only [Option.some.injEq] at h; exact ⟨_, _, h.symm⟩)

/-- Every successful render wraps a header that was sized to the stored
width minus the fixed padding. -/
theorem view_header (b : Bubble) (t : RenderTree) (h : b.view = some t) :
    headerWidthOf t = some (b.width - horizontalPadding) := by
  unfold Bubble.view at h
  cases hc : b.config with
  | none => rw [hc] at h; simp at h
  | some cfg =>
    rw [hc] at h
    cases hb : b.viewBody with
    | none => rw [hb] at h; simp at h
    | some s =>
      rw [hb] at h
      simp only [Option.some.injEq] at h
      subst h
      rfl

/-- In the Ready state, every successful render gives the two panels
exactly the widths `boxLeftWidth` and `boxRightWidth`. -/
theorem view_panel_widths (b : Bubble) (t : RenderTree)
    (hst : b.state = .loadedState) (h : b.view = some t) :
    panelWidthsOf t = some (boxLeftWidth, boxRightWidth) := by
  unfold Bubble.view at h
  cases hc : b.config with
  | none => rw [hc] at h; simp at h
  | some cfg =>
    rw [hc] at h
    cases hb : b.viewBody with
    | none => rw [hb] at h; simp at h
    | some s =>
      rw [hb] at h
      simp only [Option.some.injEq] at h
      subst h
      unfold Bubble.viewBody at hb
      rw [hst] at hb
      cases h0 : b.viewForBox 0 boxLeftWidth with
      | none => rw [h0] at hb; simp at hb
      | some lb =>
        rw [h0] at hb
        cases h1 : b.viewForBox 1 boxRightWidth with
        | none => rw [h1] at hb; simp at hb
        | some rb =>
          rw [h1] at hb
          simp only [Option.some.injEq] at hb
          subst hb
          obtain ⟨st0, in0, he0⟩ := viewForBox_shape b 0 boxLeftWidth lb h0
          obtain ⟨st1, in1, he1⟩ := viewForBox_shape b 1 boxRightWidth rb h1
          subst he0; subst he1
          rfl

/-! ## Claims -/

/-- The result of pressing tab in `readyBubble`: the focus moved to the
Viewer, whose receive log now holds the tab key event. -/
def tabResultBubble : Bubble :=
  { readyBubble with
    activeBox := 1
    boxes := [some (.selector menu1 0 []), some (.viewer "" [Msg.key "tab"])] }

/-- Claim C1 counterexample: in a Ready session the tab key event is
not consumed by the controller — after the focus advance it is
forwarded to the newly focused panel, whose update function receives it
as ordinary input (its receive log goes from empty to holding the tab
key event). -/
theorem c1_counterexample :
    receivedAt readyBubble 1 = [] ∧
    readyBubble.update (.key "tab") = some (tabResultBubble, []) ∧
    receivedAt tabResultBubble 1 = [Msg.key "tab"] := ⟨rfl, rfl, rfl⟩

/-- Claim C1 (amended): for every state, a tab key event advances the
focus index modulo the panel count (2) at the controller level before
any panel delegation, and leaves the session state unchanged; however
the key is not consumed by the controller: outside the Ready state the
rest of the model is untouched, but in the Ready state the tab key
event is then forwarded to the newly focused panel's update function as
ordinary input. -/
theorem c1_tab_cycles_focus (b : Bubble) (b1 : Bubble) (cs : List Cmd)
    (h : b.update (.key "tab") = some (b1, cs)) :
    b1.activeBox = (b.activeBox + 1) % 2 ∧ b1.state = b.state ∧
    (b.state ≠ .loadedState → b1 = { b with activeBox := (b.activeBox + 1) % 2 }) ∧
    (b.state = .loadedState →
      receivedAt b1 b1.activeBox = Msg.key "tab" :: receivedAt b b1.activeBox) :=
  update_tab b b1 cs h

/-- Witness for C1: the amended theorem applied to the concrete Ready
session. -/
theorem c1_tab_cycles_focus_witness :
    readyBubble.update (.key "tab") = some (tabResultBubble, []) ∧
    tabResultBubble.activeBox = (readyBubble.activeBox + 1) % 2 ∧
    receivedAt tabResultBubble tabResultBubble.activeBox =
      Msg.key "tab" :: receivedAt readyBubble tabResultBubble.activeBox :=
  ⟨rfl, (c1_tab_cycles_focus readyBubble tabResultBubble [] rfl).1,
    (c1_tab_cycles_focus readyBubble tabResultBubble [] rfl).2.2.2 rfl⟩

/-- The result of resizing `readyBubble` to 120×40. -/
def resizedBubble : Bubble :=
  { readyBubble with
    width := 120
    height := 40
    boxes := [some (.selector menu1 0 [Msg.windowSize 120 40]), some (.viewer "" [])] }

/-- Claim C2 counterexample: resizing the same Ready session to width
120 or to width 240 yields renders whose two panel widths are identical
(the package constants), so the panel split is not a fixed proportion
of the current `GeometrySnapshot.width`, and does not split the 120
columns: with the modelled constants the panels take 30 and 50 columns,
whose sum is not 120 minus any fixed padding in play. -/
theorem c2_counterexample :
    ((readyBubble.update (.windowSize 120 40)).bind fun p =>
        (p.1.view).bind panelWidthsOf) = some (boxLeftWidth, boxRightWidth) ∧
    ((readyBubble.update (.windowSize 240 40)).bind fun p =>
        (p.1.view).bind panelWidthsOf) = some (boxLeftWidth, boxRightWidth) ∧
    boxLeftWidth + boxRightWidth ≠ 120 ∧
    boxLeftWidth + boxRightWidth ≠ 120 - horizontalPadding ∧
    boxLeftWidth + boxRightWidth ≠ 120 - 2 * horizontalPadding :=
  ⟨rfl, rfl, by decide, by decide, by decide⟩

/-- Claim C2 (amended): in the Ready state, View lays the two panels
side by side with the constant widths `boxLeftWidth` and
`boxRightWidth`, independent of the stored geometry; it is the header,
not the panels, that is sized from `GeometrySnapshot.width` minus the
fixed `horizontalPadding`.  A resize to width `w` updates the stored
geometry, leaves the focus unchanged, and the next render sizes the
header from `w` while keeping the constant panel split. -/
theorem c2_fixed_panel_split (b : Bubble) (w hgt : Int) (b1 : Bubble) (cs : List Cmd)
    (h : b.update (.windowSize w hgt) = some (b1, cs)) :
    b1.width = w ∧ b1.height = hgt ∧ b1.activeBox = b.activeBox ∧
    (∀ t, b1.view = some t →
      headerWidthOf t = some (w - horizontalPadding) ∧
      (b1.state = .loadedState →
        panelWidthsOf t = some (boxLeftWidth, boxRightWidth))) := by
  have he : b.update (.windowSize w hgt) =
      delegate { b with width := w, height := hgt } (.windowSize w hgt) [] := rfl
  rw [he] at h
  obtain ⟨ha, hs, hw, hh, _, _, _, _, _, _, _⟩ := delegate_spec _ _ _ _ _ h
  have hw' : b1.width = w := hw
  have hh' : b1.height = hgt := hh
  have ha' : b1.activeBox = b.activeBox := ha
  refine ⟨hw', hh', ha', ?_⟩
  intro t ht
  constructor
  · rw [← hw']
    exact view_header b1 t ht
  · intro hst
    exact view_panel_widths b1 t hst ht

/-- Witness for C2: the amended theorem applied to the concrete resize
of the Ready session to 120×40. -/
theorem c2_fixed_panel_split_witness :
    readyBubble.update (.windowSize 120 40) = some (resizedBubble, []) ∧
    resizedBubble.width = 120 ∧ resizedBubble.height = 40 ∧
    resizedBubble.activeBox = readyBubble.activeBox ∧
    resizedBubble.view.bind panelWidthsOf = some (boxLeftWidth, boxRightWidth) :=
  ⟨rfl, (c2_fixed_panel_split readyBubble 120 40 resizedBubble [] rfl).1,
    (c2_fixed_panel_split readyBubble 120 40 resizedBubble [] rfl).2.1,
    (c2_fixed_panel_split readyBubble 120 40 resizedBubble [] rfl).2.2.1, rfl⟩

/-- Claim C3 (code bug): when the very first configuration load at
startup fails, `SessionHandler` only logs (`log.Printf`, unlike the
`log.Fatalf` used for a config-repo creation failure): the process is
not aborted and a session handler is still produced, capturing a nil
configuration pointer — and any session it then creates cannot even
render (nil dereference of `b.config` in `View`). -/
theorem c3_startup_not_fatal :
    sessionHandlerStartup (.ok ()) (.error "bad json in config.json: x") =
      .handler none ["cannot load config: bad json in config.json: x"] ∧
    (newSession none 80 24).view = none := ⟨rfl, rfl⟩

/-- The JSON form of a menu entry, with the three tagged fields. -/
def menuEntryJson (e : MenuEntry) : Json :=
  .obj [("name", .str e.Name), ("note", .str e.Note), ("repo", .str e.Repo)]

/-- Unmarshalling the JSON form of a menu entry recovers the entry. -/
theorem unmarshalMenuEntry_json (e : MenuEntry) :
    unmarshalMenuEntry (menuEntryJson e) = .ok e := rfl

/-- Unmarshalling a JSON array of menu-entry objects recovers the
menu. -/
theorem mapM_menuEntryJson (menu : List MenuEntry) :
    (menu.map menuEntryJson).mapM unmarshalMenuEntry = Except.ok menu := by
  induction menu with
  | nil => rfl
  | cons e rest ih =>
    rw [List.map_cons, List.mapM_cons, unmarshalMenuEntry_json, ih]
    rfl

/-- Claim C4 counterexample: the boolean field's JSON tag is
`show_all_repos`, not `show_all` — a document setting `show_all` is
treated as an unknown field and leaves the flag at its zero value,
while `show_all_repos` sets it. -/
theorem c4_counterexample :
    unmarshalConfig (.obj [("show_all", .bool true)]) = .ok cfgZero ∧
    cfgZero.ShowAllRepos = false ∧
    unmarshalConfig (.obj [("show_all_repos", .bool true)]) =
      .ok { cfgZero with ShowAllRepos := true } := ⟨rfl, rfl, rfl⟩

/-- Claim C4 (amended): configuration unmarshalling parses the fields
`name` (string), `host` (string), `port` (integer), `show_all_repos`
(boolean) and `menu` (ordered list of name/note/repo objects) into the
configuration value; every key outside this set is ignored; a
structurally malformed document — syntactically invalid text, or a
document whose root is not an object (or null) — makes the load fail
with an error. -/
theorem c4_fields (n h : String) (p : Int) (sa : Bool) (menu : List MenuEntry) :
    unmarshalConfig (.obj [("name", .str n), ("host", .str h), ("port", .num p),
        ("show_all_repos", .bool sa), ("menu", .arr (menu.map menuEntryJson))]) =
      .ok { Name := n, Host := h, Port := p, ShowAllRepos := sa, Menu := menu } ∧
    (∀ k v c, k ≠ "name" → k ≠ "host" → k ≠ "port" → k ≠ "show_all_repos" →
      k ≠ "menu" → setConfigField c (k, v) = .ok c) ∧
    loadConfig (.ok ()) (.ok .malformed) =
      .error ("bad json in config.json: " ++ "invalid character") ∧
    (∀ s, unmarshalConfig (.str s) =
      .error "cannot unmarshal value into Go value of type tui.Config") := by
  refine ⟨?_, ?_, rfl, fun _ => rfl⟩
  · show (Except.map (fun m => (⟨n, h, p, sa, m⟩ : Config))
        ((menu.map menuEntryJson).mapM unmarshalMenuEntry) >>= pure) = _
    rw [mapM_menuEntryJson]
    rfl
  · intro k v c h1 h2 h3 h4 h5
    unfold setConfigField
    rw [if_neg h1, if_neg h2, if_neg h3, if_neg h4, if_neg h5]

/-- Witness for C4: the amended theorem applied to the spec's scenario
document, and to a concrete unknown field. -/
theorem c4_fields_witness :
    unmarshalConfig (.obj [("name", .str "Demo"), ("host", .str "0.0.0.0"),
        ("port", .num 23), ("show_all_repos", .bool false),
        ("menu", .arr (menu1.map menuEntryJson))]) =
      .ok { Name := "Demo", Host := "0.0.0.0", Port := 23,
            ShowAllRepos := false, Menu := menu1 } ∧
    ("extra" ≠ "name" ∧ "extra" ≠ "host" ∧ "extra" ≠ "port" ∧
      "extra" ≠ "show_all_repos" ∧ "extra" ≠ "menu") ∧
    setConfigField cfgZero ("extra", .num 7) = .ok cfgZero :=
  ⟨(c4_fields "Demo" "0.0.0.0" 23 false menu1).1,
    ⟨by decide, by decide, by decide, by decide, by decide⟩,
    (c4_fields "Demo" "0.0.0.0" 23 false menu1).2.1 "extra" (.num 7) cfgZero
      (by decide) (by decide) (by decide) (by decide) (by decide)⟩

/-- The result of delivering `Active 0` to `readyBubble`: a load is
scheduled but the focus stays on the Selector. -/
def activeResultBubble : Bubble :=
  { readyBubble with
    boxes := [some (.selector menu1 0 [Msg.active 0]), some (.viewer "" [])] }

/-- Claim C5 counterexample: an in-bounds `ActiveMsg` schedules the
content load but does not shift focus to the Viewer — the focus index
stays 0 (Selector). -/
theorem c5_counterexample :
    readyBubble.activeBox = 0 ∧
    readyBubble.update (.active 0) =
      some (activeResultBubble, [Cmd.getRepo "repo1"]) ∧
    activeResultBubble.activeBox = 0 := ⟨rfl, rfl, rfl⟩

/-- Claim C5 (amended): for every in-bounds `SelectedMsg`, Update
schedules a content load for the referenced item and shifts focus to
the Viewer (box 1); for every in-bounds `ActiveMsg`, Update schedules
the same content load but leaves the focus where it was. -/
theorem c5_select_load (b : Bubble) (i : Int) (entry : MenuEntry)
    (hm : menuGet b.repoMenu i = some entry) :
    (∀ b1 cs, b.update (.selected i) = some (b1, cs) →
      b1.activeBox = 1 ∧ Cmd.getRepo entry.Repo ∈ cs) ∧
    (∀ b1 cs, b.update (.active i) = some (b1, cs) →
      b1.activeBox = b.activeBox ∧ Cmd.getRepo entry.Repo ∈ cs) :=
  ⟨fun b1 cs h => update_selected b i entry hm b1 cs h,
   fun b1 cs h => update_active b i entry hm b1 cs h⟩

/-- The result of delivering `Selected 0` to `readyBubble`: focus moves
to the Viewer and a load for "repo1" is scheduled. -/
def selectedResultBubble : Bubble :=
  { readyBubble with
    activeBox := 1
    boxes := [some (.selector menu1 0 []), some (.viewer "" [Msg.selected 0])] }

/-- Witness for C5: the amended theorem applied to the spec's scenario
(`Selected` with index 0 on the one-entry menu). -/
theorem c5_select_load_witness :
    menuGet readyBubble.repoMenu 0 =
      some { Name := "repo1", Note := "", Repo := "repo1" } ∧
    readyBubble.update (.selected 0) =
      some (selectedResultBubble, [Cmd.getRepo "repo1"]) ∧
    selectedResultBubble.activeBox = 1 ∧
    Cmd.getRepo "repo1" ∈ [Cmd.getRepo "repo1"] :=
  ⟨rfl, rfl,
    ((c5_select_load readyBubble 0 _ rfl).1 selectedResultBubble
      [Cmd.getRepo "repo1"] rfl).1,
    ((c5_select_load readyBubble 0 _ rfl).1 selectedResultBubble
      [Cmd.getRepo "repo1"] rfl).2⟩

/-- Claim C6: a background refresh iteration on which either the data
source reload or the configuration reload fails leaves the published
snapshot unchanged and logs the failure; a successful iteration
publishes the newly built configuration, which subsequently created
sessions then observe. -/
theorem c6_refresh_retains (pub : Option Config) (e : String)
    (r : Except String Config) (cfg : Config) :
    refreshIteration pub (.error e) r = (pub, ["cannot load repos: " ++ e]) ∧
    refreshIteration pub (.ok ()) (.error e) =
      (pub, ["cannot load config: " ++ e]) ∧
    refreshIteration pub (.ok ()) (.ok cfg) = (some cfg, []) ∧
    (newSession (refreshIteration pub (.ok ()) (.ok cfg)).1 80 24).config =
      some cfg :=
  ⟨rfl, rfl, rfl, rfl⟩

/-- Claim C7: after the controller has processed a whole event
sequence, the stored geometry equals the dimensions carried by the last
resize event of the sequence, and the next render sizes its header from
that latest geometry. -/
theorem c7_last_resize (b : Bubble) (msgs : List Msg) (b2 : Bubble)
    (cs : List Cmd) (w h : Int) (hp : processAll b msgs = some (b2, cs))
    (hr : lastResize msgs = some (w, h)) :
    b2.width = w ∧ b2.height = h ∧
    (∀ t, b2.view = some t → headerWidthOf t = some (w - horizontalPadding)) := by
  obtain ⟨hw, hh⟩ := processAll_lastResize msgs b b2 cs w h hp hr
  refine ⟨hw, hh, ?_⟩
  intro t ht
  rw [← hw]
  exact view_header b2 t ht

/-- The result of a keystroke followed by a resize to 120×40 on the
Ready session. -/
def c7ResultBubble : Bubble :=
  { readyBubble with
    width := 120
    height := 40
    boxes := [some (.selector menu1 0 [Msg.windowSize 120 40, Msg.key "x"]),
              some (.viewer "" [])] }

/-- Witness for C7: the theorem applied to a concrete sequence whose
last (and only) resize is 120×40. -/
theorem c7_last_resize_witness :
    processAll readyBubble [Msg.key "x", Msg.windowSize 120 40] =
      some (c7ResultBubble, []) ∧
    lastResize [Msg.key "x", Msg.windowSize 120 40] = some (120, 40) ∧
    c7ResultBubble.width = 120 ∧ c7ResultBubble.height = 40 :=
  ⟨rfl, rfl,
    (c7_last_resize readyBubble [Msg.key "x", Msg.windowSize 120 40]
      c7ResultBubble [] 120 40 rfl rfl).1,
    (c7_last_resize readyBubble [Msg.key "x", Msg.windowSize 120 40]
      c7ResultBubble [] 120 40 rfl rfl).2.1⟩

/-- Claim C8: for every Selected or Active event whose index lies in
[0, len(repoMenu)) — the bound the Selector guarantees for what it
emits — the unguarded menu indexing inside Update is in bounds: the
`none` (panic) branch of the embedded lookup is unreachable, and the
dispatch switch produces the content-load command for the indexed
entry. -/
theorem c8_index_in_bounds (b : Bubble) (i : Int) (h0 : 0 ≤ i)
    (hlt : i < (b.repoMenu.length : Int)) :
    ∃ entry, menuGet b.repoMenu i = some entry ∧
      updateCore b (.selected i) =
        some (.cont { b with activeBox := 1 } [Cmd.getRepo entry.Repo]) ∧
      updateCore b (.active i) = some (.cont b [Cmd.getRepo entry.Repo]) := by
  have hlt' : i.toNat < b.repoMenu.length := by omega
  obtain ⟨entry, hentry⟩ : ∃ e, b.repoMenu[i.toNat]? = some e :=
    ⟨_, List.getElem?_eq_getElem hlt'⟩
  have hm : menuGet b.repoMenu i = some entry := by
    unfold menuGet
    rw [if_pos h0, hentry]
  refine ⟨entry, hm, ?_, ?_⟩ <;> simp [updateCore, hm]

/-- Witness for C8: the theorem applied to index 0 of the one-entry
menu. -/
theorem c8_index_in_bounds_witness :
    (0 : Int) ≤ 0 ∧ (0 : Int) < (readyBubble.repoMenu.length : Int) ∧
    ∃ entry, menuGet readyBubble.repoMenu 0 = some entry ∧
      updateCore readyBubble (.selected 0) =
        some (.cont { readyBubble with activeBox := 1 }
          [Cmd.getRepo entry.Repo]) ∧
      updateCore readyBubble (.active 0) =
        some (.cont readyBubble [Cmd.getRepo entry.Repo]) :=
  ⟨le_refl 0, by decide,
    c8_index_in_bounds readyBubble 0 (le_refl 0) (by decide)⟩

/-- Claim C9: from any reachable state of a session, the focus index is
in [0, 2), and pressing the focus-cycle key twice returns the focus to
its original value. -/
theorem c9_focus_invariant (cfg : Option Config) (w h : Int) (msgs : List Msg)
    (b2 : Bubble) (cs : List Cmd)
    (hp : processAll (NewBubble cfg w h) msgs = some (b2, cs)) :
    b2.activeBox < 2 ∧
    ∃ b3 cs3, processAll b2 [Msg.key "tab", Msg.key "tab"] = some (b3, cs3) ∧
      b3.activeBox = b2.activeBox := by
  have hinv0 : CtrlInv (NewBubble cfg w h) :=
    ⟨by norm_num [NewBubble], rfl, by intro hst; simp [NewBubble] at hst⟩
  have hinv2 := processAll_inv msgs _ b2 cs hinv0 hp
  obtain ⟨b3, cs3a, h3⟩ := update_tab_success b2 hinv2
  have hinv3 := update_inv _ _ _ _ hinv2 h3
  obtain ⟨b4, cs4, h4⟩ := update_tab_success b3 hinv3
  have ha3 := (update_tab _ _ _ h3).1
  have ha4 := (update_tab _ _ _ h4).1
  refine ⟨hinv2.1, b4, cs3a ++ (cs4 ++ []), ?_, ?_⟩
  · simp [processAll, h3, h4]
  · rw [ha4, ha3]
    have := hinv2.1
    omega

/-- Witness for C9: the theorem applied to a freshly created session
with no events processed. -/
theorem c9_focus_invariant_witness :
    processAll (NewBubble none 80 24) [] = some (NewBubble none 80 24, []) ∧
    ((NewBubble none 80 24).activeBox < 2 ∧
      ∃ b3 cs3, processAll (NewBubble none 80 24)
          [Msg.key "tab", Msg.key "tab"] = some (b3, cs3) ∧
        b3.activeBox = (NewBubble none 80 24).activeBox) :=
  ⟨rfl, c9_focus_invariant none 80 24 [] _ _ rfl⟩

/-- Claim C10: a sequence of key events containing no quit key ("q" or
ctrl+c) never moves the session to the Closing/Closed states, and never
schedules the quit command — at any point during the processing of the
sequence. -/
theorem c10_no_quit (b : Bubble) (msgs : List Msg)
    (hkeys : ∀ m ∈ msgs, ∃ s, m = Msg.key s ∧ ¬(s = "q" ∨ s = "ctrl+c"))
    (hstart : b.state ≠ .quittingState ∧ b.state ≠ .quitState) :
    ∀ n b2 cs, processAll b (msgs.take n) = some (b2, cs) →
      (b2.state ≠ .quittingState ∧ b2.state ≠ .quitState) ∧ Cmd.quit ∉ cs := by
  intro n b2 cs hp
  have hk : ∀ m ∈ msgs.take n, ∃ s, m = Msg.key s ∧ ¬(s = "q" ∨ s = "ctrl+c") :=
    fun m hm => hkeys m (List.take_subset n msgs hm)
  have hres := processAll_keys (msgs.take n) b b2 cs hk hp
  refine ⟨?_, hres.2⟩
  rw [hres.1]
  exact hstart

/-- The result of the keystroke "x" on the Ready session. -/
def c10ResultBubble : Bubble :=
  { readyBubble with
    boxes := [some (.selector menu1 0 [Msg.key "x"]), some (.viewer "" [])] }

/-- Witness for C10: the theorem applied to the concrete non-quit key
sequence ["x"] on the Ready session. -/
theorem c10_no_quit_witness :
    (readyBubble.state ≠ sessionState.quittingState ∧
      readyBubble.state ≠ sessionState.quitState) ∧
    processAll readyBubble ([Msg.key "x"].take 1) = some (c10ResultBubble, []) ∧
    ((c10ResultBubble.state ≠ sessionState.quittingState ∧
      c10ResultBubble.state ≠ sessionState.quitState) ∧
      Cmd.quit ∉ ([] : List Cmd)) :=
  ⟨⟨by decide, by decide⟩, rfl,
    c10_no_quit readyBubble [Msg.key "x"]
      (by
        intro m hm
        simp only [List.mem_singleton] at hm
        subst hm
        exact ⟨"x", rfl, by decide⟩)
      ⟨by decide, by decide⟩ 1 c10ResultBubble [] rfl⟩
